import Mathlib

/-!
Shallow embedding of the WalletApi repository (Go).

The model layer (internal/model), the repository layer
(PostgresRepository.ProcessTransaction, executed against an in-memory
relational wallets table), and the service layer (sharded lanes with
FNV-1a routing, pre-lane amount validation, in-worker dispatch on the
operation kind, and shutdown by closing the lane channels) are embedded
as executable Lean functions, and the specified properties are proved
about them.

Conventions of the embedding:
  - Go int64 arithmetic is modelled as mathematical Int reduced with
    wrap64 at each arithmetic step, exactly where the Go code computes
    an int64 sum or difference.
  - The wallets table is a list of (id, balance) rows; an SQL rollback
    is modelled by returning the unchanged table, a commit by returning
    the updated table.
  - The service call together with the lane-worker turn that serves the
    enqueued request is collapsed into one synchronous function, as
    observed by the calling goroutine; the trace of lane and store
    events is returned so that pre-lane behaviour is visible.
  - A Go send on a closed channel is a runtime panic; it is modelled as
    a distinguished panicked outcome.
-/

namespace WalletApi

/-- Largest Go int64 value, 2 ^ 63 - 1. -/
def int64Max : Int := 9223372036854775807

/-- Smallest Go int64 value, - 2 ^ 63. -/
def int64Min : Int := -9223372036854775808

/-- Reduction of a mathematical integer to the twos-complement signed
64-bit value that Go int64 arithmetic produces. -/
def wrap64 (x : Int) : Int :=
  (x + 9223372036854775808) % 18446744073709551616 - 9223372036854775808

/-- The value x is representable as a Go int64. -/
def Int64Range (x : Int) : Prop := int64Min ≤ x ∧ x ≤ int64Max

/-- The four model-level errors of internal/model (part_001). -/
inductive WalletError
  | walletNotFound
  | insufficientFunds
  | invalidAmount
  | invalidOperation
deriving DecidableEq

/-- OperationType constant Deposit = "DEPOSIT" (a Go string type). -/
def Deposit : String := "DEPOSIT"

/-- OperationType constant Withdraw = "WITHDRAW". -/
def Withdraw : String := "WITHDRAW"

/-- The model.Transaction request shape: wallet id, operation kind
string, int64 amount. -/
structure Transaction where
  WalletID : String
  OperationType : String
  Amount : Int
deriving DecidableEq

/-- The wallets table: one row per wallet id with an int64 balance. -/
abbrev Store := List (String × Int)

/-- Lookup of the balance row of a wallet id (SELECT balance / EXISTS:
a row exists exactly when the lookup returns some balance). -/
def getBalanceRow : Store → String → Option Int
  | [], _ => none
  | (k, b) :: rest, i => if k = i then some b else getBalanceRow rest i

/-- UPDATE wallets SET balance = v WHERE id = i: rewrites the balance
of the first row with the given id and keeps every other row. -/
def setBalanceRow : Store → String → Int → Store
  | [], _, _ => []
  | (k, b) :: rest, i, v =>
    if k = i then (k, v) :: rest else (k, b) :: setBalanceRow rest i v

namespace PostgresRepository

/-- Embedding of PostgresRepository.ProcessTransaction (part_002, lines
37-103): validate the amount, begin a transaction, check existence,
read the balance under the row lock, check funds on a debit, compute
the new balance in int64 arithmetic, write and commit. Every error
path returns before the commit, so the returned store is the unchanged
input there (the deferred rollback); the success path returns the
updated store. -/
def ProcessTransaction (db : Store) (walletID : String) (amount : Int)
    (isDeposit : Bool) : Option WalletError × Store :=
  if amount ≤ 0 then
    (some .invalidAmount, db)
  else
    match getBalanceRow db walletID with
    | none => (some .walletNotFound, db)
    | some balance =>
      if isDeposit = false ∧ balance < amount then
        (some .insufficientFunds, db)
      else
        let newBalance :=
          if isDeposit then wrap64 (balance + amount)
          else wrap64 (balance - amount)
        (none, setBalanceRow db walletID newBalance)

end PostgresRepository

/-- FNV-1a 32-bit offset basis used by fnv.New32a. -/
def fnv32OffsetBasis : Nat := 2166136261

/-- FNV-1a 32-bit prime. -/
def fnv32Prime : Nat := 16777619

/-- The FNV-1a 32-bit hash of a byte sequence, as computed by
fnv.New32a, Write, Sum32: per byte, xor then multiply modulo 2 ^ 32. -/
def fnv1a32 (bytes : List Nat) : Nat :=
  bytes.foldl (fun h b => ((h ^^^ b) * fnv32Prime) % 4294967296) fnv32OffsetBasis

/-- UTF-8 encoding of one code point, as Go produces for a byte slice
converted from a string. -/
def utf8EncodeCodePoint (c : Nat) : List Nat :=
  if c < 128 then [c]
  else if c < 2048 then [192 + c / 64, 128 + c % 64]
  else if c < 65536 then
    [224 + c / 4096, 128 + (c / 64) % 64, 128 + c % 64]
  else
    [240 + c / 262144, 128 + (c / 4096) % 64, 128 + (c / 64) % 64, 128 + c % 64]

/-- The byte sequence of a Go string: UTF-8 bytes of its code points. -/
def stringBytes (s : String) : List Nat :=
  (s.data.map (fun c => utf8EncodeCodePoint c.toNat)).flatten

/-- The walletService state visible to the embedded operations: the
repository store behind it, the fixed worker count, and whether
Shutdown has closed the lane channels. -/
structure WalletServiceState where
  db : Store
  workers : Int
  closed : Bool

/-- Observable lane and store events of one service call. -/
inductive LaneEvent
  | enqueued (lane : Int)
  | storeCall
deriving DecidableEq

/-- What the calling goroutine of the service observes: a returned Go
error value (none = nil = success), or a runtime panic. -/
inductive SubmitOutcome
  | result (e : Option WalletError)
  | panicked
deriving DecidableEq

namespace walletService

/-- Embedding of walletService.getShard (part_003, lines 54-58): the
FNV-1a hash of the wallet id bytes, converted by int(h.Sum32()) to a
64-bit int (value preserving, hence nonnegative) and reduced with the
Go truncated remainder by the worker count. -/
def getShard (s : WalletServiceState) (walletID : String) : Int :=
  Int.tmod (Int.ofNat (fnv1a32 (stringBytes walletID))) s.workers

/-- Embedding of walletService.ProcessTransaction (part_003, lines
60-75) together with the lane-worker turn of processTransactions
(lines 81-95) that serves the enqueued request, collapsed to one
synchronous call as observed by the caller. Returns the outcome the
caller receives, the store after the call, and the trace of lane and
store events. The amount check precedes the send; a send on a closed
channel is a Go runtime panic, modelled as the panicked outcome with
no enqueue. The worker dispatches on the operation kind and calls the
repository only for the two recognized kinds. -/
def ProcessTransaction (s : WalletServiceState) (t : Transaction) :
    SubmitOutcome × Store × List LaneEvent :=
  if t.Amount ≤ 0 then
    (.result (some .invalidAmount), s.db, [])
  else
    let shard := getShard s t.WalletID
    if s.closed then
      (.panicked, s.db, [])
    else if t.OperationType = Deposit then
      (.result (PostgresRepository.ProcessTransaction s.db t.WalletID t.Amount true).1,
       (PostgresRepository.ProcessTransaction s.db t.WalletID t.Amount true).2,
       [.enqueued shard, .storeCall])
    else if t.OperationType = Withdraw then
      (.result (PostgresRepository.ProcessTransaction s.db t.WalletID t.Amount false).1,
       (PostgresRepository.ProcessTransaction s.db t.WalletID t.Amount false).2,
       [.enqueued shard, .storeCall])
    else
      (.result (some .invalidOperation), s.db, [.enqueued shard])

/-- Embedding of walletService.Shutdown (part_003, lines 101-106):
closes every lane channel. -/
def Shutdown (s : WalletServiceState) : WalletServiceState :=
  { s with closed := true }

end walletService

/-- Sequential application of repository operations to one wallet:
each element is (isDeposit, amount), applied in order through
PostgresRepository.ProcessTransaction; error steps leave the store
unchanged (rollback), success steps commit. -/
def runOps (db : Store) (walletID : String) : List (Bool × Int) → Store
  | [] => db
  | op :: rest =>
    runOps (PostgresRepository.ProcessTransaction db walletID op.2 op.1).2 walletID rest

/-- Total amount credited by the deposit elements of a sequence that
pass the positive-amount validation. -/
def creditSum : List (Bool × Int) → Int
  | [] => 0
  | op :: rest => (if op.1 = true ∧ 0 < op.2 then op.2 else 0) + creditSum rest

/-! Helper lemmas about the store, wrapping and credit sums. -/

theorem getBalanceRow_setBalanceRow_self (db : Store) (i : String) (b v : Int)
    (h : getBalanceRow db i = some b) :
    getBalanceRow (setBalanceRow db i v) i = some v := by
  induction db with
  | nil => simp [getBalanceRow] at h
  | cons p rest ih =>
    obtain ⟨k, w⟩ := p
    by_cases hk : k = i
    · simp [getBalanceRow, setBalanceRow, hk]
    · simp only [getBalanceRow, setBalanceRow, if_neg hk] at h ⊢
      exact ih h

theorem creditSum_nonneg (ops : List (Bool × Int)) : 0 ≤ creditSum ops := by
  induction ops with
  | nil => simp [creditSum]
  | cons op rest ih =>
    simp only [creditSum]
    split
    · rename_i h
      have h2 := h.2
      omega
    · omega

theorem creditSum_rest_le (op : Bool × Int) (rest : List (Bool × Int)) :
    creditSum rest ≤ creditSum (op :: rest) := by
  simp only [creditSum]
  split
  · rename_i h
    have h2 := h.2
    omega
  · omega

theorem wrap64_eq_self {x : Int} (h1 : int64Min ≤ x) (h2 : x ≤ int64Max) :
    wrap64 x = x := by
  unfold wrap64
  unfold int64Min at h1
  unfold int64Max at h2
  omega

theorem wrap64_eq_sub {x : Int} (h1 : int64Max < x) (h2 : x ≤ 18446744073709551614) :
    wrap64 x = x - 18446744073709551616 := by
  unfold wrap64
  unfold int64Max at h1
  omega

/-! Shape lemmas for the repository operation. -/

theorem processTransaction_deposit (db : Store) (walletID : String) (b a : Int)
    (hb : getBalanceRow db walletID = some b) (ha : 0 < a) :
    PostgresRepository.ProcessTransaction db walletID a true
      = (none, setBalanceRow db walletID (wrap64 (b + a))) := by
  unfold PostgresRepository.ProcessTransaction
  rw [if_neg (by omega), hb]
  simp

theorem processTransaction_withdraw (db : Store) (walletID : String) (b a : Int)
    (hb : getBalanceRow db walletID = some b) (ha : 0 < a) (hba : a ≤ b) :
    PostgresRepository.ProcessTransaction db walletID a false
      = (none, setBalanceRow db walletID (wrap64 (b - a))) := by
  unfold PostgresRepository.ProcessTransaction
  rw [if_neg (by omega), hb]
  have hnb : ¬ (b < a) := by omega
  simp [hnb]

theorem processTransaction_insufficient (db : Store) (walletID : String) (b a : Int)
    (hb : getBalanceRow db walletID = some b) (ha : 0 < a) (hba : b < a) :
    PostgresRepository.ProcessTransaction db walletID a false
      = (some .insufficientFunds, db) := by
  unfold PostgresRepository.ProcessTransaction
  rw [if_neg (by omega), hb]
  simp [hba]

theorem processTransaction_snd_of_error (db : Store) (walletID : String) (a : Int)
    (isDeposit : Bool) (e : WalletError) :
    (PostgresRepository.ProcessTransaction db walletID a isDeposit).1 = some e →
    (PostgresRepository.ProcessTransaction db walletID a isDeposit).2 = db := by
  unfold PostgresRepository.ProcessTransaction
  split
  · intro _; rfl
  · split
    · intro _; rfl
    · split
      · intro _; rfl
      · intro h; simp at h

/-- Case analysis of one repository step with a present row: either the
store is unchanged (an error path), or the amount was admitted and the
committed store is the single row update of the claimed new balance. -/
theorem processTransaction_step (db : Store) (walletID : String) (a : Int) (isDep : Bool)
    (b : Int) (hb : getBalanceRow db walletID = some b) :
    (PostgresRepository.ProcessTransaction db walletID a isDep).2 = db ∨
    (0 < a ∧
      ((isDep = true ∧
          (PostgresRepository.ProcessTransaction db walletID a isDep).2
            = setBalanceRow db walletID (wrap64 (b + a))) ∨
       (isDep = false ∧ a ≤ b ∧
          (PostgresRepository.ProcessTransaction db walletID a isDep).2
            = setBalanceRow db walletID (wrap64 (b - a))))) := by
  by_cases ha : a ≤ 0
  · left
    unfold PostgresRepository.ProcessTransaction
    rw [if_pos ha]
  · cases isDep with
    | true =>
      right
      exact ⟨by omega, Or.inl ⟨rfl, by rw [processTransaction_deposit db walletID b a hb (by omega)]⟩⟩
    | false =>
      by_cases hba : b < a
      · left
        rw [processTransaction_insufficient db walletID b a hb (by omega) hba]
      · right
        exact ⟨by omega, Or.inr ⟨rfl, by omega,
          by rw [processTransaction_withdraw db walletID b a hb (by omega) (by omega)]⟩⟩

/-- Induction core for the non-negativity invariant: if the wallet row
holds a nonnegative balance b and the total admitted credit of the
remaining operations keeps b within the int64 range, the balance stays
present and nonnegative through the whole run. -/
theorem runOps_balance_nonneg (walletID : String) :
    ∀ (ops : List (Bool × Int)) (db : Store) (b : Int),
      getBalanceRow db walletID = some b → 0 ≤ b → b + creditSum ops ≤ int64Max →
      ∃ b2, getBalanceRow (runOps db walletID ops) walletID = some b2 ∧ 0 ≤ b2 := by
  intro ops
  induction ops with
  | nil =>
    intro db b hb h0 _
    exact ⟨b, by simpa [runOps] using hb, h0⟩
  | cons op rest ih =>
    intro db b hb h0 hsum
    have hcs := creditSum_nonneg rest
    have hcons := creditSum_rest_le op rest
    obtain ⟨isDep, a⟩ := op
    rw [runOps]
    rcases processTransaction_step db walletID a isDep b hb with hsame | ⟨ha, hcase⟩
    · exact ih _ b (by simpa [hsame] using hb) h0 (by omega)
    · rcases hcase with ⟨hdep, hstore⟩ | ⟨hdep, hba, hstore⟩
      · subst hdep
        have hhead : creditSum ((true, a) :: rest) = a + creditSum rest := by
          simp [creditSum, ha]
        rw [hhead] at hsum
        have hwrap : wrap64 (b + a) = b + a := by
          apply wrap64_eq_self
          · unfold int64Min; omega
          · omega
        rw [hwrap] at hstore
        exact ih _ (b + a)
          (by simpa [hstore] using getBalanceRow_setBalanceRow_self db walletID b (b + a) hb)
          (by omega) (by omega)
      · subst hdep
        have hhead : creditSum ((false, a) :: rest) = creditSum rest := by
          simp [creditSum]
        rw [hhead] at hsum
        have hwrap : wrap64 (b - a) = b - a := by
          apply wrap64_eq_self
          · unfold int64Min; omega
          · unfold int64Max at hsum ⊢; omega
        rw [hwrap] at hstore
        exact ih _ (b - a)
          (by simpa [hstore] using getBalanceRow_setBalanceRow_self db walletID b (b - a) hb)
          (by omega) (by omega)

/-- Any error outcome of a service call leaves the store unchanged. -/
theorem service_error_store (s : WalletServiceState) (t : Transaction) (e : WalletError)
    (h : (walletService.ProcessTransaction s t).1 = .result (some e)) :
    (walletService.ProcessTransaction s t).2.1 = s.db := by
  unfold walletService.ProcessTransaction at h ⊢
  by_cases h1 : t.Amount ≤ 0
  · simp [h1]
  · by_cases h2 : s.closed = true
    · simp [h1, h2] at h
    · by_cases h3 : t.OperationType = Deposit
      · simp only [if_neg h1, Bool.not_eq_true] at h ⊢
        simp [h2, h3] at h ⊢
        exact processTransaction_snd_of_error _ _ _ _ e h
      · by_cases h4 : t.OperationType = Withdraw
        · simp only [if_neg h1, Bool.not_eq_true] at h ⊢
          simp [h2, h3, h4, Deposit, Withdraw] at h ⊢
          exact processTransaction_snd_of_error _ _ _ _ e h
        · simp [h1, h2, h3, h4]

/-! Claim theorems. -/

/-- Claim C1 (amended): starting from a wallet row with committed balance
0, every sequence of operations committed through the repository
ProcessTransaction whose total admitted credit stays within the int64
range keeps the committed balance nonnegative; in particular every
all-debit sequence (whose credit sum is 0) keeps it nonnegative. -/
theorem c1_balance_nonneg_amended (db : Store) (walletID : String)
    (ops : List (Bool × Int))
    (hb : getBalanceRow db walletID = some 0)
    (hsum : creditSum ops ≤ int64Max) :
    ∃ b2, getBalanceRow (runOps db walletID ops) walletID = some b2 ∧ 0 ≤ b2 :=
  runOps_balance_nonneg walletID ops db 0 hb le_rfl (by simpa using hsum)

/-- Witness for c1_balance_nonneg_amended at a concrete store and
sequence of one deposit and one debit. -/
theorem c1_balance_nonneg_amended_witness :
    getBalanceRow [("w", 0)] "w" = some 0 ∧
    creditSum [(true, 100), (false, 40)] ≤ int64Max ∧
    ∃ b2, getBalanceRow (runOps [("w", 0)] "w" [(true, 100), (false, 40)]) "w"
      = some b2 ∧ 0 ≤ b2 :=
  ⟨by decide, by decide,
   c1_balance_nonneg_amended [("w", 0)] "w" [(true, 100), (false, 40)]
     (by decide) (by decide)⟩

/-- Counterexample to claim C1 as stated: from balance 0, two committed
deposits of 2 ^ 62 each (positive, admitted, committed) wrap the int64
balance to - 2 ^ 63, a negative committed balance. -/
theorem c1_counterexample :
    getBalanceRow
        (runOps [("w", 0)] "w"
          [(true, 4611686018427387904), (true, 4611686018427387904)]) "w"
      = some (-9223372036854775808) ∧
    (-9223372036854775808 : Int) < 0 := by decide

/-- Claim C2 (amended): for an existing wallet with int64 balance b and
an int64 amount a > 0, a deposit returns nil and commits exactly the
single row update to b + a, provided b + a stays within the int64
range; a withdraw with a ≤ b returns nil and commits exactly the single
row update to b - a (which never overflows). -/
theorem c2_executor_success (db : Store) (walletID : String) (b a : Int)
    (hb : getBalanceRow db walletID = some b) (hbr : Int64Range b)
    (har : Int64Range a) (ha : 0 < a) :
    (b + a ≤ int64Max →
      PostgresRepository.ProcessTransaction db walletID a true
        = (none, setBalanceRow db walletID (b + a)) ∧
      getBalanceRow (PostgresRepository.ProcessTransaction db walletID a true).2 walletID
        = some (b + a)) ∧
    (a ≤ b →
      PostgresRepository.ProcessTransaction db walletID a false
        = (none, setBalanceRow db walletID (b - a)) ∧
      getBalanceRow (PostgresRepository.ProcessTransaction db walletID a false).2 walletID
        = some (b - a)) := by
  obtain ⟨hbl, hbu⟩ := hbr
  obtain ⟨hal, hau⟩ := har
  unfold int64Min at hbl hal
  unfold int64Max at hbu hau
  constructor
  · intro hov
    have hwrap : wrap64 (b + a) = b + a := by
      apply wrap64_eq_self
      · unfold int64Min; omega
      · exact hov
    have heq := processTransaction_deposit db walletID b a hb ha
    rw [hwrap] at heq
    refine ⟨heq, ?_⟩
    rw [heq]
    exact getBalanceRow_setBalanceRow_self db walletID b (b + a) hb
  · intro hba
    have hwrap : wrap64 (b - a) = b - a := by
      apply wrap64_eq_self
      · unfold int64Min; omega
      · unfold int64Max; omega
    have heq := processTransaction_withdraw db walletID b a hb ha hba
    rw [hwrap] at heq
    refine ⟨heq, ?_⟩
    rw [heq]
    exact getBalanceRow_setBalanceRow_self db walletID b (b - a) hb

/-- Witness for c2_executor_success: balance 10, amount 5, both kinds. -/
theorem c2_executor_success_witness :
    PostgresRepository.ProcessTransaction [("w", 10)] "w" 5 true
      = (none, setBalanceRow [("w", 10)] "w" (10 + 5)) ∧
    PostgresRepository.ProcessTransaction [("w", 10)] "w" 5 false
      = (none, setBalanceRow [("w", 10)] "w" (10 - 5)) :=
  have hc := c2_executor_success [("w", 10)] "w" 10 5 (by decide)
    ⟨by decide, by decide⟩ ⟨by decide, by decide⟩ (by decide)
  ⟨(hc.1 (by decide)).1, (hc.2 (by decide)).1⟩

/-- Counterexample to claim C2 as stated: with committed balance
2 ^ 63 - 1 and deposit amount 1 the call succeeds, but the committed
balance is the wrapped value - 2 ^ 63, strictly below b + a = 2 ^ 63,
so the deposit does not commit exactly b + a. -/
theorem c2_counterexample :
    PostgresRepository.ProcessTransaction [("w", 9223372036854775807)] "w" 1 true
      = (none, [("w", -9223372036854775808)]) ∧
    (-9223372036854775808 : Int) < 9223372036854775807 + 1 := by decide

/-- Claim C3: rejection is side-effect-free: a debit of a > 0 against an
existing balance b < a returns InsufficientFunds with the store
unchanged and no write; any repository error outcome leaves the store
unchanged; and any service-level error outcome (which includes
InvalidAmount, InvalidOperation, WalletNotFound and InsufficientFunds)
leaves the store unchanged. -/
theorem c3_rejection_side_effect_free (s : WalletServiceState) (t : Transaction)
    (db : Store) (walletID : String) (a b : Int) (isDeposit : Bool) (e : WalletError) :
    (getBalanceRow db walletID = some b → 0 < a → b < a →
      PostgresRepository.ProcessTransaction db walletID a false
        = (some .insufficientFunds, db)) ∧
    ((PostgresRepository.ProcessTransaction db walletID a isDeposit).1 = some e →
      (PostgresRepository.ProcessTransaction db walletID a isDeposit).2 = db) ∧
    ((walletService.ProcessTransaction s t).1 = .result (some e) →
      (walletService.ProcessTransaction s t).2.1 = s.db) :=
  ⟨fun hb ha hba => processTransaction_insufficient db walletID b a hb ha hba,
   processTransaction_snd_of_error db walletID a isDeposit e,
   service_error_store s t e⟩

/-- Witness for c3_rejection_side_effect_free: debit 7 against balance
5, at the repository and through the service. -/
theorem c3_rejection_side_effect_free_witness :
    PostgresRepository.ProcessTransaction [("w", 5)] "w" 7 false
      = (some .insufficientFunds, [("w", 5)]) ∧
    (PostgresRepository.ProcessTransaction [("w", 5)] "w" 7 false).2 = [("w", 5)] ∧
    (walletService.ProcessTransaction ⟨[("w", 5)], 4, false⟩ ⟨"w", "WITHDRAW", 7⟩).2.1
      = [("w", 5)] :=
  have hc := c3_rejection_side_effect_free ⟨[("w", 5)], 4, false⟩ ⟨"w", "WITHDRAW", 7⟩
    [("w", 5)] "w" 7 5 false .insufficientFunds
  ⟨hc.1 (by decide) (by decide) (by decide), hc.2.1 (by decide), hc.2.2 (by decide)⟩

/-- Claim C4 (amended): the service validates amount > 0 synchronously
and fails fast with InvalidAmount with no enqueue, no store call and no
store change; kind validation happens in the lane worker after the
request is enqueued: an unrecognized kind with positive amount is
enqueued on its lane and rejected with InvalidOperation, with no store
call and no store change. -/
theorem c4_pre_lane_validation_amended (s : WalletServiceState) (t : Transaction)
    (hopen : s.closed = false) :
    (t.Amount ≤ 0 →
      walletService.ProcessTransaction s t
        = (.result (some .invalidAmount), s.db, [])) ∧
    (0 < t.Amount → t.OperationType ≠ Deposit → t.OperationType ≠ Withdraw →
      walletService.ProcessTransaction s t
        = (.result (some .invalidOperation), s.db,
           [.enqueued (walletService.getShard s t.WalletID)])) := by
  constructor
  · intro h
    unfold walletService.ProcessTransaction
    rw [if_pos h]
  · intro h1 h2 h3
    unfold walletService.ProcessTransaction
    rw [if_neg (by omega)]
    simp [hopen, h2, h3]

/-- Witness for c4_pre_lane_validation_amended: a negative amount and an
unrecognized kind, on an open service. -/
theorem c4_pre_lane_validation_amended_witness :
    walletService.ProcessTransaction ⟨[("w", 1)], 4, false⟩ ⟨"w", "DEPOSIT", -5⟩
      = (.result (some .invalidAmount), [("w", 1)], []) ∧
    walletService.ProcessTransaction ⟨[("w", 1)], 4, false⟩ ⟨"w", "TRANSFER", 100⟩
      = (.result (some .invalidOperation), [("w", 1)],
         [.enqueued (walletService.getShard ⟨[("w", 1)], 4, false⟩ "w")]) :=
  ⟨(c4_pre_lane_validation_amended ⟨[("w", 1)], 4, false⟩ ⟨"w", "DEPOSIT", -5⟩ rfl).1
     (by decide),
   (c4_pre_lane_validation_amended ⟨[("w", 1)], 4, false⟩ ⟨"w", "TRANSFER", 100⟩ rfl).2
     (by decide) (by decide) (by decide)⟩

/-- Counterexample to claim C4 as stated: a request with positive amount
and the unrecognized kind TRANSFER is rejected with InvalidOperation,
but its event trace contains an enqueue on lane 2, so the kind check is
not pre-lane. -/
theorem c4_counterexample :
    (walletService.ProcessTransaction ⟨[], 4, false⟩ ⟨"w", "TRANSFER", 100⟩).1
      = .result (some .invalidOperation) ∧
    (walletService.ProcessTransaction ⟨[], 4, false⟩ ⟨"w", "TRANSFER", 100⟩).2.2
      = [.enqueued 2] := by decide

/-- Claim C5: an absent wallet row with a positive amount yields
WalletNotFound with the store unchanged, for both kinds; in particular
a debit on an absent wallet reports WalletNotFound rather than
InsufficientFunds, because the existence check precedes the funds
check. Through the service, an otherwise valid request on an absent
wallet yields the WalletNotFound outcome with the store unchanged. -/
theorem c5_wallet_not_found (db : Store) (walletID : String) (a : Int) (isDeposit : Bool)
    (s : WalletServiceState) (t : Transaction)
    (hnone : getBalanceRow db walletID = none) (ha : 0 < a) :
    PostgresRepository.ProcessTransaction db walletID a isDeposit
      = (some .walletNotFound, db) ∧
    (s.closed = false → getBalanceRow s.db t.WalletID = none → 0 < t.Amount →
      t.OperationType = Deposit ∨ t.OperationType = Withdraw →
      walletService.ProcessTransaction s t
        = (.result (some .walletNotFound), s.db,
           [.enqueued (walletService.getShard s t.WalletID), .storeCall])) := by
  constructor
  · unfold PostgresRepository.ProcessTransaction
    rw [if_neg (by omega), hnone]
  · intro hopen hnone2 ha2 hkind
    have hrepo : ∀ d : Bool,
        PostgresRepository.ProcessTransaction s.db t.WalletID t.Amount d
          = (some .walletNotFound, s.db) := by
      intro d
      unfold PostgresRepository.ProcessTransaction
      rw [if_neg (by omega), hnone2]
    unfold walletService.ProcessTransaction
    rw [if_neg (by omega)]
    rcases hkind with hk | hk
    · simp [hopen, hk, hrepo]
    · have hne : t.OperationType ≠ Deposit := by
        rw [hk]
        decide
      simp [hopen, hne, hk, hrepo]

/-- Witness for c5_wallet_not_found: a debit of 100 on the absent
wallet id w, at the repository and through the service. -/
theorem c5_wallet_not_found_witness :
    PostgresRepository.ProcessTransaction [("x", 3)] "w" 100 false
      = (some .walletNotFound, [("x", 3)]) ∧
    walletService.ProcessTransaction ⟨[("x", 3)], 4, false⟩ ⟨"w", "WITHDRAW", 100⟩
      = (.result (some .walletNotFound), [("x", 3)],
         [.enqueued (walletService.getShard ⟨[("x", 3)], 4, false⟩ "w"), .storeCall]) :=
  have hc := c5_wallet_not_found [("x", 3)] "w" 100 false ⟨[("x", 3)], 4, false⟩
    ⟨"w", "WITHDRAW", 100⟩ (by decide) (by decide)
  ⟨hc.1, hc.2 rfl (by decide) (by decide) (Or.inr rfl)⟩

/-- Claim C6, evaluated at the failing input: after Shutdown has closed
the lane channels, a valid deposit request produces the panicked
outcome (the Go send on a closed channel is a runtime panic), not a
returned error value. -/
theorem c6_post_shutdown_panics :
    (walletService.ProcessTransaction
        (walletService.Shutdown ⟨[("w", 0)], 4, false⟩) ⟨"w", "DEPOSIT", 100⟩).1
      = .panicked := by decide

/-- Claim C7: the shard router is a pure function of the wallet id and
the worker count: any two service states with the same worker count
route every wallet id to the same lane, whatever the rest of their
state. -/
theorem c7_router_pure (s1 s2 : WalletServiceState) (walletID : String)
    (hw : s1.workers = s2.workers) :
    walletService.getShard s1 walletID = walletService.getShard s2 walletID := by
  unfold walletService.getShard
  rw [hw]

/-- Witness for c7_router_pure: two states with worker count 16 that
differ in store contents and closed flag. -/
theorem c7_router_pure_witness :
    walletService.getShard ⟨[("w", 5)], 16, false⟩ "abc"
      = walletService.getShard ⟨[], 16, true⟩ "abc" :=
  c7_router_pure ⟨[("w", 5)], 16, false⟩ ⟨[], 16, true⟩ "abc" rfl

/-- Claim C8: conservation round trip: from committed balance 0, a
committed deposit of an int64 amount A > 0 followed by a committed
withdraw of A returns the committed balance to exactly 0, and both
calls succeed. -/
theorem c8_conservation (db : Store) (walletID : String) (A : Int)
    (hb : getBalanceRow db walletID = some 0) (hA : 0 < A) (hAr : A ≤ int64Max) :
    (PostgresRepository.ProcessTransaction db walletID A true).1 = none ∧
    (PostgresRepository.ProcessTransaction
        (PostgresRepository.ProcessTransaction db walletID A true).2
        walletID A false).1 = none ∧
    getBalanceRow
        (PostgresRepository.ProcessTransaction
          (PostgresRepository.ProcessTransaction db walletID A true).2
          walletID A false).2 walletID
      = some 0 := by
  have h1 := processTransaction_deposit db walletID 0 A hb hA
  have hwrapA : wrap64 (0 + A) = A := by
    rw [zero_add]
    apply wrap64_eq_self
    · unfold int64Min
      omega
    · exact hAr
  rw [hwrapA] at h1
  have hb1 : getBalanceRow (PostgresRepository.ProcessTransaction db walletID A true).2 walletID
      = some A := by
    rw [h1]
    exact getBalanceRow_setBalanceRow_self db walletID 0 A hb
  have h2 := processTransaction_withdraw
    (PostgresRepository.ProcessTransaction db walletID A true).2 walletID A A hb1 hA le_rfl
  have hwrap0 : wrap64 (A - A) = 0 := by
    rw [sub_self]
    apply wrap64_eq_self
    · unfold int64Min
      omega
    · unfold int64Max
      omega
  rw [hwrap0] at h2
  refine ⟨by rw [h1], by rw [h2], ?_⟩
  rw [h2]
  exact getBalanceRow_setBalanceRow_self _ walletID A 0 hb1

/-- Witness for c8_conservation: deposit 1500 then withdraw 1500 from
balance 0. -/
theorem c8_conservation_witness :
    (PostgresRepository.ProcessTransaction [("w", 0)] "w" 1500 true).1 = none ∧
    (PostgresRepository.ProcessTransaction
        (PostgresRepository.ProcessTransaction [("w", 0)] "w" 1500 true).2
        "w" 1500 false).1 = none ∧
    getBalanceRow
        (PostgresRepository.ProcessTransaction
          (PostgresRepository.ProcessTransaction [("w", 0)] "w" 1500 true).2
          "w" 1500 false).2 "w"
      = some 0 :=
  c8_conservation [("w", 0)] "w" 1500 (by decide) (by decide) (by decide)

/-- Claim C9: for a positive worker count, getShard returns a lane index
in the half-open range from 0 to the worker count, so the queue lookup
by the service never indexes out of bounds; nonnegativity rests on the
value-preserving 64-bit int conversion of the 32-bit hash. -/
theorem c9_shard_in_range (s : WalletServiceState) (walletID : String)
    (hw : 0 < s.workers) :
    0 ≤ walletService.getShard s walletID ∧
    walletService.getShard s walletID < s.workers := by
  unfold walletService.getShard
  have hnn : (0 : Int) ≤ Int.ofNat (fnv1a32 (stringBytes walletID)) :=
    Int.ofNat_nonneg _
  rw [Int.tmod_eq_emod hnn (le_of_lt hw)]
  exact ⟨Int.emod_nonneg _ (by omega), Int.emod_lt_of_pos _ hw⟩

/-- Witness for c9_shard_in_range: the wallet id abc with 16 workers. -/
theorem c9_shard_in_range_witness :
    0 ≤ walletService.getShard ⟨[], 16, false⟩ "abc" ∧
    walletService.getShard ⟨[], 16, false⟩ "abc" < (16 : Int) :=
  c9_shard_in_range ⟨[], 16, false⟩ "abc" (by decide)

/-- Claim C10: unchecked int64 deposit arithmetic: when the existing
int64 balance b and the int64 amount a > 0 satisfy b + a above the
int64 maximum, the deposit still succeeds (no error is reported) and
commits the twos-complement wrapped value b + a - 2 ^ 64, which is
negative. -/
theorem c10_overflow_wrap (db : Store) (walletID : String) (b a : Int)
    (hb : getBalanceRow db walletID = some b) (hbr : Int64Range b)
    (har : Int64Range a) (ha : 0 < a) (hover : int64Max < b + a) :
    (PostgresRepository.ProcessTransaction db walletID a true).1 = none ∧
    getBalanceRow (PostgresRepository.ProcessTransaction db walletID a true).2 walletID
      = some (b + a - 18446744073709551616) ∧
    b + a - 18446744073709551616 < 0 := by
  obtain ⟨hbl, hbu⟩ := hbr
  obtain ⟨hal, hau⟩ := har
  unfold int64Max at hbu hau hover
  have h1 := processTransaction_deposit db walletID b a hb ha
  have hwrap : wrap64 (b + a) = b + a - 18446744073709551616 := by
    apply wrap64_eq_sub
    · unfold int64Max
      omega
    · omega
  rw [hwrap] at h1
  refine ⟨by rw [h1], ?_, by omega⟩
  rw [h1]
  exact getBalanceRow_setBalanceRow_self db walletID b _ hb

/-- Witness for c10_overflow_wrap: balance 2 ^ 63 - 1, deposit 1. -/
theorem c10_overflow_wrap_witness :
    (PostgresRepository.ProcessTransaction [("w", 9223372036854775807)] "w" 1 true).1
      = none ∧
    getBalanceRow
        (PostgresRepository.ProcessTransaction [("w", 9223372036854775807)] "w" 1 true).2
        "w" = some (9223372036854775807 + 1 - 18446744073709551616) ∧
    (9223372036854775807 : Int) + 1 - 18446744073709551616 < 0 :=
  c10_overflow_wrap [("w", 9223372036854775807)] "w" 9223372036854775807 1 (by decide)
    ⟨by decide, by decide⟩ ⟨by decide, by decide⟩ (by decide) (by decide)

end WalletApi
